import Mathlib

/-!
Verification development for the Multi-Disease Data Analyzer dashboard
(PythonApplication3.py).  The heart of the program is the dataset
normalization routine load_diabetes_data, which detects Country, Year and
Value columns of a CSV table by name matching and a numeric fallback, and
the per-country yearly aggregation of the Analyze pass.  Tables are
embedded shallowly: a table is a list of header names together with rows
of cells; a cell is a string, a rational number, a derived calendar date
(always January 1 of some year, so represented by the year), or a missing
value (the embedding of pandas NaN / NaT).
-/

namespace MDDA

/-! ### Python str.strip (whitespace trimming), modelling the str.strip
calls of the loader (source line 67 and line 98). -/

def wsChar (c : Char) : Bool := c == ' ' || c == '\t' || c == '\n' || c == '\r'

def lstripL (l : List Char) : List Char := l.dropWhile wsChar

def rstripL (l : List Char) : List Char := (l.reverse.dropWhile wsChar).reverse

def stripL (l : List Char) : List Char := rstripL (lstripL l)

def pyStrip (s : String) : String := ⟨stripL s.data⟩

def pyLower (s : String) : String := ⟨s.data.map Char.toLower⟩

def pyUpper (s : String) : String := ⟨s.data.map Char.toUpper⟩

/-! ### Cells and pandas-style coercions -/

inductive Cell where
  | str (s : String)
  | num (q : ℚ)
  | date (y : Int)
  | na
deriving DecidableEq

def natOfDigits (l : List Char) : Nat := l.foldl (fun a c => 10 * a + (c.toNat - 48)) 0

/-- Model of the numeric parsing performed by pd.to_numeric on a string:
optional surrounding whitespace, optional sign, decimal digits with at
most one decimal point (scientific notation is not modelled). -/
def parseNumeric (s : String) : Option ℚ :=
  let l0 := stripL s.data
  let signed : Bool × List Char :=
    match l0 with
    | '-' :: t => (true, t)
    | '+' :: t => (false, t)
    | t => (false, t)
  let l := signed.2
  let ip := l.takeWhile (fun c => !(c == '.'))
  let rest := l.dropWhile (fun c => !(c == '.'))
  match rest with
  | [] =>
    if ip.isEmpty || !(ip.all Char.isDigit) then none
    else some (if signed.1 then -(natOfDigits ip : ℚ) else (natOfDigits ip : ℚ))
  | _ :: fr =>
    if (ip.isEmpty && fr.isEmpty) || !(ip.all Char.isDigit) || !(fr.all Char.isDigit) then none
    else
      let q : ℚ := (natOfDigits ip : ℚ) + (natOfDigits fr : ℚ) / ((10 : ℚ) ^ fr.length)
      some (if signed.1 then -q else q)

/-- pd.to_numeric with errors equal to coerce, applied to one cell:
numbers pass through, strings are parsed, everything else becomes NaN. -/
def toNumeric : Cell → Cell
  | Cell.str s =>
    match parseNumeric s with
    | some q => Cell.num q
    | none => Cell.na
  | Cell.num q => Cell.num q
  | Cell.date _ => Cell.na
  | Cell.na => Cell.na

/-- Series.fillna(0) on a cell. -/
def fillna0 : Cell → Cell
  | Cell.na => Cell.num 0
  | c => c

def ratStr (q : ℚ) : String :=
  if q.den = 1 then toString q.num else toString q.num ++ "/" ++ toString q.den

/-- Series.astype(str) on a cell; pandas renders NaN as the string nan. -/
def cellToStr : Cell → String
  | Cell.str s => s
  | Cell.num q => ratStr q
  | Cell.date y => toString y ++ "-01-01"
  | Cell.na => "nan"

/-- Truncation toward zero, the semantics of astype(int) on a float. -/
def truncRat (q : ℚ) : Int := if 0 ≤ q then q.floor else q.ceil

/-- Series.astype(int) on a cell. -/
def astypeInt : Cell → Cell
  | Cell.num q => Cell.num ((truncRat q : Int) : ℚ)
  | c => c

/-- Model of line 106 of the source, pd.to_datetime(year-string + "-01-01",
errors equal to coerce), applied to a Year cell.  Modelled from the pandas
library semantics: a four-digit ISO date parses to a Timestamp only within
the pandas Timestamp range, whose January 1 instances are the years 1678
to 2262; anything else coerces to NaT. -/
def mkDateCell : Cell → Cell
  | Cell.num q =>
    if q.den = 1 ∧ 1678 ≤ q.num ∧ q.num ≤ 2262 then Cell.date q.num else Cell.na
  | _ => Cell.na

/-! ### Tables -/

structure Table where
  headers : List String
  rows : List (List Cell)
deriving DecidableEq

/-- Cell of a row at a column index; out-of-range access is NaN. -/
def cellAt (r : List Cell) (i : Nat) : Cell := r.getD i Cell.na

def updateAt : Nat → (Cell → Cell) → List Cell → List Cell
  | _, _, [] => []
  | 0, f, c :: cs => f c :: cs
  | n + 1, f, c :: cs => c :: updateAt n f cs

/-- Index of the first column with the given name (pandas label lookup). -/
def firstIdx (x : String) : List String → Nat
  | [] => 0
  | h :: t => if h = x then 0 else firstIdx x t + 1

/-- A table is rectangular: every row has one cell per header.  DataFrames
are rectangular by construction. -/
def Rect (t : Table) : Prop := ∀ r ∈ t.rows, r.length = t.headers.length

/-! ### Column detection (source lines 69 to 91) -/

def countryAliases : List String := ["country", "entity", "location", "country_name"]

def yearAliases : List String := ["year", "time"]

def valueAliases : List String :=
  ["value", "prevalence", "diabetes", "diabetes_prevalence", "diabetes prevalence",
   "diabetes prevalence (%)", "sh.sta.diab.zs"]

/-- lc = c.lower().strip() of source line 71. -/
def lcOf (c : String) : String := pyStrip (pyLower c)

/-- The rename map of source lines 69 to 79: exact case-insensitive match
of a header against the static candidate lists. -/
def canonRename (c : String) : String :=
  if lcOf c ∈ countryAliases then "Country"
  else if lcOf c ∈ yearAliases then "Year"
  else if lcOf c ∈ valueAliases then "Value"
  else c

def colCells (rows : List (List Cell)) (i : Nat) : List Cell := rows.map (fun r => cellAt r i)

/-- s.notna().mean() > 0.5 of source line 88: strictly more than half of
the cells of the column parse as numbers. -/
def numericOk (cells : List Cell) : Bool :=
  decide (cells.length < 2 * (cells.filter (fun c => !(toNumeric c == Cell.na))).length)

/-- The numeric_candidates loop of source lines 83 to 89: column positions,
in order, whose (renamed) name is not Country or Year and whose cells are
mostly numeric. -/
def fallbackCandidates (hs : List String) (rows : List (List Cell)) : List Nat :=
  (List.range hs.length).filter
    (fun i => !(hs.getD i "" == "Country") && !(hs.getD i "" == "Year")
      && numericOk (colCells rows i))

/-- Source lines 82 to 91: if no column was named Value, rename the first
mostly-numeric column (excluding Country and Year) to Value. -/
def valueFallback (hs : List String) (rows : List (List Cell)) : List String :=
  if "Value" ∈ hs then hs
  else
    match fallbackCandidates hs rows with
    | [] => hs
    | i :: _ => hs.map (fun c => if c = hs.getD i "" then "Value" else c)

/-- Header detection phase of load_diabetes_data: strip header names
(line 67), apply the rename map (line 79), then the numeric fallback. -/
def detectHeaders (t : Table) : List String :=
  valueFallback ((t.headers.map pyStrip).map canonRename) t.rows

/-! ### The normalization pipeline of load_diabetes_data, lines 93 to 111,
staged so that each source statement is one definition. -/

/-- Line 98: df Country column set to astype(str).str.strip() of itself. -/
def countryXform (c : Cell) : Cell := Cell.str (pyStrip (cellToStr c))

/-- Line 100: df Value column set to to_numeric(...).fillna(0). -/
def valueXform (c : Cell) : Cell := fillna0 (toNumeric c)

/-- Line 102: dropna on the Country and Year columns keeps a row iff
neither cell is missing. -/
def keepRow (iC iY : Nat) (r : List Cell) : Bool :=
  !(cellAt r iC == Cell.na) && !(cellAt r iY == Cell.na)

/-- Line 106: the Date column derived from the Year column; it is written
over an existing Date column, or appended as a new last column. -/
def addDate (hs : List String) (r : List Cell) : List Cell :=
  if "Date" ∈ hs then
    updateAt (firstIdx "Date" hs) (fun _ => mkDateCell (cellAt r (firstIdx "Year" hs))) r
  else r ++ [mkDateCell (cellAt r (firstIdx "Year" hs))]

def rows1 (hs : List String) (rows : List (List Cell)) : List (List Cell) :=
  rows.map (updateAt (firstIdx "Country" hs) countryXform)

def rows2 (hs : List String) (rows : List (List Cell)) : List (List Cell) :=
  (rows1 hs rows).map (updateAt (firstIdx "Year" hs) toNumeric)

def rows3 (hs : List String) (rows : List (List Cell)) : List (List Cell) :=
  (rows2 hs rows).map (updateAt (firstIdx "Value" hs) valueXform)

def rows4 (hs : List String) (rows : List (List Cell)) : List (List Cell) :=
  (rows3 hs rows).filter (keepRow (firstIdx "Country" hs) (firstIdx "Year" hs))

def rows5 (hs : List String) (rows : List (List Cell)) : List (List Cell) :=
  (rows4 hs rows).map (updateAt (firstIdx "Year" hs) astypeInt)

/-- Output header list: the detected headers, with Date appended when the
table had no Date column. -/
def hsOut (hs : List String) : List String :=
  if "Date" ∈ hs then hs else hs ++ ["Date"]

def rows6 (hs : List String) (rows : List (List Cell)) : List (List Cell) :=
  (rows5 hs rows).map (addDate hs)

/-- Line 107: dropna on the Date column. -/
def rows7 (hs : List String) (rows : List (List Cell)) : List (List Cell) :=
  (rows6 hs rows).filter
    (fun r => !(cellAt r (firstIdx "Date" (hsOut hs)) == Cell.na))

/-- Lines 93 to 111 of the source, applied after header detection: the
must-have check of line 94 aborts with the user-facing missing-column
error (st.error and st.stop); otherwise the column coercions, the dropna
steps and the Date derivation run and the normalized table is returned. -/
def normCore (hs : List String) (rows : List (List Cell)) : Option Table :=
  if "Country" ∈ hs ∧ "Year" ∈ hs ∧ "Value" ∈ hs then
    some ⟨hsOut hs, rows7 hs rows⟩
  else none

/-- The whole transformation of load_diabetes_data on an input table. -/
def normTable (t : Table) : Option Table := normCore (detectHeaders t) t.rows

/-! ### List helper lemmas -/

theorem dropWhile_dropWhile {α : Type} (p : α → Bool) (l : List α) :
    (l.dropWhile p).dropWhile p = l.dropWhile p := by
  induction l with
  | nil => rfl
  | cons a t ih =>
    by_cases hp : p a
    · simp [List.dropWhile_cons, hp, ih]
    · simp [List.dropWhile_cons, hp]

theorem dropWhile_head_not {α : Type} (p : α → Bool) (l : List α) :
    l.dropWhile p = [] ∨ ∃ a t, l.dropWhile p = a :: t ∧ p a = false := by
  induction l with
  | nil => exact Or.inl rfl
  | cons a t ih =>
    by_cases hp : p a
    · simpa [List.dropWhile_cons, hp] using ih
    · exact Or.inr ⟨a, t, by simp [List.dropWhile_cons, hp], by simpa using hp⟩

theorem exists_append_dropWhile {α : Type} (p : α → Bool) (l : List α) :
    ∃ u, l = u ++ l.dropWhile p := by
  induction l with
  | nil => exact ⟨[], rfl⟩
  | cons a t ih =>
    by_cases hp : p a
    · obtain ⟨u, hu⟩ := ih
      exact ⟨a :: u, by simp [List.dropWhile_cons, hp]; exact hu⟩
    · exact ⟨[], by simp [List.dropWhile_cons, hp]⟩

theorem rstripL_rstripL (l : List Char) : rstripL (rstripL l) = rstripL l := by
  unfold rstripL
  rw [List.reverse_reverse, dropWhile_dropWhile]

theorem exists_rstripL (l : List Char) : ∃ v, l = rstripL l ++ v := by
  obtain ⟨u, hu⟩ := exists_append_dropWhile wsChar l.reverse
  refine ⟨u.reverse, ?_⟩
  have := congrArg List.reverse hu
  simpa [rstripL] using this

theorem lstripL_fixed_of_head (a : Char) (t : List Char) (h : wsChar a = false) :
    lstripL (a :: t) = a :: t := by
  simp [lstripL, List.dropWhile_cons, h]

theorem lstripL_rstripL_of_fixed (l : List Char) (h : lstripL l = l) :
    lstripL (rstripL l) = rstripL l := by
  cases hr : rstripL l with
  | nil => simp [lstripL]
  | cons a w =>
    obtain ⟨v, hv⟩ := exists_rstripL l
    rw [hr] at hv
    have ha : wsChar a = false := by
      by_contra hab
      have ha' : wsChar a = true := by
        cases hw : wsChar a
        · exact absurd hw hab
        · rfl
      have h1 : lstripL l = lstripL (w ++ v) := by
        rw [hv]; simp [lstripL, List.dropWhile_cons, ha']
      have h2 : l.length = (w ++ v).length + 1 := by rw [hv]; simp
      have h3 : (lstripL (w ++ v)).length ≤ (w ++ v).length :=
        (List.dropWhile_sublist wsChar).length_le
      rw [← h1, h] at h3
      omega
    exact lstripL_fixed_of_head a w ha

theorem stripL_idem (l : List Char) : stripL (stripL l) = stripL l := by
  show rstripL (lstripL (rstripL (lstripL l))) = rstripL (lstripL l)
  rw [lstripL_rstripL_of_fixed (lstripL l) (dropWhile_dropWhile wsChar l), rstripL_rstripL]

theorem pyStrip_idem (s : String) : pyStrip (pyStrip s) = pyStrip s := by
  show (⟨stripL (stripL s.data)⟩ : String) = ⟨stripL s.data⟩
  rw [stripL_idem]

theorem updateAt_length (i : Nat) (f : Cell → Cell) (r : List Cell) :
    (updateAt i f r).length = r.length := by
  induction r generalizing i with
  | nil => cases i <;> rfl
  | cons c cs ih =>
    cases i with
    | zero => rfl
    | succ n => simpa [updateAt] using ih n

theorem cellAt_updateAt_self (i : Nat) (f : Cell → Cell) (r : List Cell) (h : i < r.length) :
    cellAt (updateAt i f r) i = f (cellAt r i) := by
  induction r generalizing i with
  | nil => simp at h
  | cons c cs ih =>
    cases i with
    | zero => rfl
    | succ n =>
      have hn : n < cs.length := by simpa using h
      simpa [updateAt, cellAt] using ih n hn

theorem cellAt_updateAt_ne (i j : Nat) (f : Cell → Cell) (r : List Cell) (h : j ≠ i) :
    cellAt (updateAt i f r) j = cellAt r j := by
  induction r generalizing i j with
  | nil => cases i <;> rfl
  | cons c cs ih =>
    cases i with
    | zero =>
      cases j with
      | zero => exact absurd rfl h
      | succ m => rfl
    | succ n =>
      cases j with
      | zero => rfl
      | succ m =>
        have : m ≠ n := fun he => h (by rw [he])
        simpa [updateAt, cellAt] using ih n m this

theorem updateAt_eq_self (i : Nat) (f : Cell → Cell) (r : List Cell)
    (h : f (cellAt r i) = cellAt r i) : updateAt i f r = r := by
  induction r generalizing i with
  | nil => cases i <;> rfl
  | cons c cs ih =>
    cases i with
    | zero => simpa [updateAt, cellAt] using h
    | succ n =>
      have := ih n (by simpa [cellAt] using h)
      simp [updateAt, this]

theorem mapSame {α : Type} (f : α → α) (l : List α) (h : ∀ a ∈ l, f a = a) :
    l.map f = l := by
  rw [List.map_congr_left (g := id) h, List.map_id]

theorem firstIdx_lt_length (x : String) (hs : List String) (h : x ∈ hs) :
    firstIdx x hs < hs.length := by
  induction hs with
  | nil => simp at h
  | cons a t ih =>
    by_cases ha : a = x
    · simp [firstIdx, ha]
    · have hx : x ∈ t := by
        rcases List.mem_cons.mp h with h1 | h1
        · exact absurd h1.symm ha
        · exact h1
      simpa [firstIdx, ha] using ih hx

theorem getD_firstIdx (x : String) (hs : List String) (h : x ∈ hs) :
    hs.getD (firstIdx x hs) "" = x := by
  induction hs with
  | nil => simp at h
  | cons a t ih =>
    by_cases ha : a = x
    · simp [firstIdx, ha]
    · have hx : x ∈ t := by
        rcases List.mem_cons.mp h with h1 | h1
        · exact absurd h1.symm ha
        · exact h1
      simpa [firstIdx, ha] using ih hx

theorem firstIdx_ne (x y : String) (hs : List String) (hx : x ∈ hs) (hy : y ∈ hs)
    (hxy : x ≠ y) : firstIdx x hs ≠ firstIdx y hs := by
  intro he
  apply hxy
  rw [← getD_firstIdx x hs hx, ← getD_firstIdx y hs hy, he]

theorem firstIdx_append_left (x : String) (hs ms : List String) (h : x ∈ hs) :
    firstIdx x (hs ++ ms) = firstIdx x hs := by
  induction hs with
  | nil => simp at h
  | cons a t ih =>
    by_cases ha : a = x
    · simp [firstIdx, ha]
    · have hx : x ∈ t := by
        rcases List.mem_cons.mp h with h1 | h1
        · exact absurd h1.symm ha
        · exact h1
      simp [firstIdx, ha, ih hx]

theorem firstIdx_append_self (x : String) (hs : List String) (h : x ∉ hs) :
    firstIdx x (hs ++ [x]) = hs.length := by
  induction hs with
  | nil => simp [firstIdx]
  | cons a t ih =>
    have ha : a ≠ x := fun he => h (by simp [he])
    have ht : x ∉ t := fun he => h (List.mem_cons_of_mem a he)
    simp [firstIdx, ha, ih ht]

theorem cellAt_append_left (r u : List Cell) (i : Nat) (h : i < r.length) :
    cellAt (r ++ u) i = cellAt r i := by
  induction r generalizing i with
  | nil => simp at h
  | cons c cs ih =>
    cases i with
    | zero => rfl
    | succ n =>
      have hn : n < cs.length := by simpa using h
      simpa [cellAt] using ih n hn

theorem cellAt_append_at (r : List Cell) (c : Cell) :
    cellAt (r ++ [c]) r.length = c := by
  induction r with
  | nil => rfl
  | cons a t ih => simp [cellAt] at ih ⊢

/-! ### Cell and rename facts -/

theorem toNumeric_cases (c : Cell) :
    toNumeric c = Cell.na ∨ ∃ q, toNumeric c = Cell.num q := by
  cases c with
  | str s =>
    cases hp : parseNumeric s with
    | none => exact Or.inl (by simp [toNumeric, hp])
    | some q => exact Or.inr ⟨q, by simp [toNumeric, hp]⟩
  | num q => exact Or.inr ⟨q, rfl⟩
  | date y => exact Or.inl rfl
  | na => exact Or.inl rfl

theorem valueXform_num (c : Cell) : ∃ q, valueXform c = Cell.num q := by
  rcases toNumeric_cases c with h | ⟨q, h⟩
  · exact ⟨0, by simp [valueXform, h, fillna0]⟩
  · exact ⟨q, by simp [valueXform, h, fillna0]⟩

theorem canonRename_country : canonRename "Country" = "Country" := by decide

theorem canonRename_year : canonRename "Year" = "Year" := by decide

theorem canonRename_value : canonRename "Value" = "Value" := by decide

theorem canonRename_date : canonRename "Date" = "Date" := by decide

theorem canonRename_idem (c : String) : canonRename (canonRename c) = canonRename c := by
  by_cases h1 : lcOf c ∈ countryAliases
  · simp [canonRename, h1]; decide
  · by_cases h2 : lcOf c ∈ yearAliases
    · simp [canonRename, h1, h2]; decide
    · by_cases h3 : lcOf c ∈ valueAliases
      · simp [canonRename, h1, h2, h3]; decide
      · simp [canonRename, h1, h2, h3]

theorem pyStrip_canonRename (a : String) :
    pyStrip (canonRename (pyStrip a)) = canonRename (pyStrip a) := by
  by_cases h1 : lcOf (pyStrip a) ∈ countryAliases
  · simp [canonRename, h1]; decide
  · by_cases h2 : lcOf (pyStrip a) ∈ yearAliases
    · simp [canonRename, h1, h2]; decide
    · by_cases h3 : lcOf (pyStrip a) ∈ valueAliases
      · simp [canonRename, h1, h2, h3]; decide
      · simp [canonRename, h1, h2, h3, pyStrip_idem]

theorem valueFallback_mem (hs : List String) (rows : List (List Cell)) (c : String)
    (h : c ∈ valueFallback hs rows) : c ∈ hs ∨ c = "Value" := by
  unfold valueFallback at h
  by_cases hv : "Value" ∈ hs
  · rw [if_pos hv] at h; exact Or.inl h
  · rw [if_neg hv] at h
    cases hc : fallbackCandidates hs rows with
    | nil => rw [hc] at h; exact Or.inl h
    | cons i t =>
      rw [hc] at h
      rcases List.mem_map.mp h with ⟨a, ha, he⟩
      by_cases he2 : a = hs.getD i ""
      · rw [if_pos he2] at he; exact Or.inr he.symm
      · rw [if_neg he2] at he; rw [← he]; exact Or.inl ha

theorem valueFallback_length (hs : List String) (rows : List (List Cell)) :
    (valueFallback hs rows).length = hs.length := by
  unfold valueFallback
  by_cases hv : "Value" ∈ hs
  · simp [hv]
  · simp [hv]
    cases hc : fallbackCandidates hs rows with
    | nil => simp
    | cons i t => simp

theorem detectHeaders_length (t : Table) : (detectHeaders t).length = t.headers.length := by
  unfold detectHeaders
  rw [valueFallback_length]
  simp

theorem truncRat_intCast (y : Int) : truncRat ((y : ℤ) : ℚ) = y := by
  unfold truncRat
  by_cases h : (0 : ℚ) ≤ ((y : ℤ) : ℚ) <;>
    simp [h, Rat.floor, Rat.ceil, Rat.den_intCast, Rat.num_intCast]

theorem mkDateCell_intCast (y : Int) (h1 : 1678 ≤ y) (h2 : y ≤ 2262) :
    mkDateCell (Cell.num ((y : ℤ) : ℚ)) = Cell.date y := by
  simp [mkDateCell, Rat.den_intCast, Rat.num_intCast, h1, h2]

/-! ### The shape of every normalized output row and header list -/

/-- Facts holding of every row of a normalized table: it is as long as the
header list, its Country cell is a trimmed string, its Year cell is an
integer inside the range that the derived January-1 date parsing accepts,
its Date cell is that same year, and its Value cell is numeric. -/
def GoodRow (hs2 : List String) (r : List Cell) : Prop :=
  r.length = hs2.length ∧
  (∃ s, cellAt r (firstIdx "Country" hs2) = Cell.str s ∧ pyStrip s = s) ∧
  (∃ y : Int, cellAt r (firstIdx "Year" hs2) = Cell.num ((y : ℤ) : ℚ) ∧
    1678 ≤ y ∧ y ≤ 2262 ∧ cellAt r (firstIdx "Date" hs2) = Cell.date y) ∧
  (∃ q, cellAt r (firstIdx "Value" hs2) = Cell.num q)

/-- Facts holding of the header list of a normalized table: every name is
trimmed and fixed by the rename map, and the canonical columns exist. -/
def GoodHeaders (hs2 : List String) : Prop :=
  (∀ c ∈ hs2, pyStrip c = c ∧ canonRename c = c) ∧
  "Country" ∈ hs2 ∧ "Year" ∈ hs2 ∧ "Value" ∈ hs2 ∧ "Date" ∈ hs2

theorem goodHeaders_of_detect (t : Table) (hs : List String) (hhs : hs = detectHeaders t)
    (hC : "Country" ∈ hs) (hY : "Year" ∈ hs) (hV : "Value" ∈ hs) :
    GoodHeaders (hsOut hs) := by
  have hmem : ∀ c ∈ hsOut hs, c ∈ hs ∨ c = "Date" := by
    intro c hc
    unfold hsOut at hc
    by_cases hD : "Date" ∈ hs
    · rw [if_pos hD] at hc; exact Or.inl hc
    · rw [if_neg hD] at hc
      rcases List.mem_append.mp hc with h1 | h1
      · exact Or.inl h1
      · exact Or.inr (by simpa using h1)
  have hfix : ∀ c ∈ hs, pyStrip c = c ∧ canonRename c = c := by
    intro c hc
    rw [hhs] at hc
    unfold detectHeaders at hc
    rcases valueFallback_mem _ _ _ hc with h1 | h1
    · rcases List.mem_map.mp h1 with ⟨b, hb, hbe⟩
      rcases List.mem_map.mp hb with ⟨a, _, hae⟩
      rw [← hbe, ← hae]
      exact ⟨pyStrip_canonRename a, canonRename_idem (pyStrip a)⟩
    · rw [h1]
      exact ⟨by decide, canonRename_value⟩
  have hsub : ∀ c ∈ hs, c ∈ hsOut hs := by
    intro c hc
    unfold hsOut
    by_cases hD : "Date" ∈ hs
    · rw [if_pos hD]; exact hc
    · rw [if_neg hD]; exact List.mem_append.mpr (Or.inl hc)
  refine ⟨?_, hsub _ hC, hsub _ hY, hsub _ hV, ?_⟩
  · intro c hc
    rcases hmem c hc with h1 | h1
    · exact hfix c h1
    · rw [h1]; exact ⟨by decide, canonRename_date⟩
  · unfold hsOut
    by_cases hD : "Date" ∈ hs
    · rw [if_pos hD]; exact hD
    · rw [if_neg hD]; exact List.mem_append.mpr (Or.inr (by simp))

theorem mkDateCell_num_cases (q : ℚ) :
    mkDateCell (Cell.num q) = Cell.na ∨
      (q.den = 1 ∧ 1678 ≤ q.num ∧ q.num ≤ 2262 ∧
        mkDateCell (Cell.num q) = Cell.date q.num) := by
  by_cases h : q.den = 1 ∧ 1678 ≤ q.num ∧ q.num ≤ 2262
  · exact Or.inr ⟨h.1, h.2.1, h.2.2, by simp [mkDateCell, h]⟩
  · exact Or.inl (by simp [mkDateCell, h])

theorem goodRow_of_mem (hs : List String) (rows : List (List Cell))
    (hC : "Country" ∈ hs) (hY : "Year" ∈ hs) (hV : "Value" ∈ hs)
    (hlen : ∀ a ∈ rows, a.length = hs.length)
    (r : List Cell) (hr : r ∈ rows7 hs rows) : GoodRow (hsOut hs) r := by
  have hCY : ("Country" : String) ≠ "Year" := by decide
  have hCV : ("Country" : String) ≠ "Value" := by decide
  have hYV : ("Year" : String) ≠ "Value" := by decide
  have hiC : firstIdx "Country" hs < hs.length := firstIdx_lt_length _ _ hC
  have hiY : firstIdx "Year" hs < hs.length := firstIdx_lt_length _ _ hY
  have hiV : firstIdx "Value" hs < hs.length := firstIdx_lt_length _ _ hV
  have hneCY : firstIdx "Country" hs ≠ firstIdx "Year" hs := firstIdx_ne _ _ _ hC hY hCY
  have hneCV : firstIdx "Country" hs ≠ firstIdx "Value" hs := firstIdx_ne _ _ _ hC hV hCV
  have hneYV : firstIdx "Year" hs ≠ firstIdx "Value" hs := firstIdx_ne _ _ _ hY hV hYV
  have hfC : firstIdx "Country" (hsOut hs) = firstIdx "Country" hs := by
    unfold hsOut
    by_cases hD : "Date" ∈ hs
    · rw [if_pos hD]
    · rw [if_neg hD]; exact firstIdx_append_left _ _ _ hC
  have hfY : firstIdx "Year" (hsOut hs) = firstIdx "Year" hs := by
    unfold hsOut
    by_cases hD : "Date" ∈ hs
    · rw [if_pos hD]
    · rw [if_neg hD]; exact firstIdx_append_left _ _ _ hY
  have hfV : firstIdx "Value" (hsOut hs) = firstIdx "Value" hs := by
    unfold hsOut
    by_cases hD : "Date" ∈ hs
    · rw [if_pos hD]
    · rw [if_neg hD]; exact firstIdx_append_left _ _ _ hV
  obtain ⟨hr6, hp7⟩ := List.mem_filter.mp hr
  obtain ⟨b4, hb4, he6⟩ := List.mem_map.mp hr6
  obtain ⟨b3, hb3, he5⟩ := List.mem_map.mp hb4
  obtain ⟨hb3r3, hkeep⟩ := List.mem_filter.mp hb3
  obtain ⟨b2, hb2, he3⟩ := List.mem_map.mp hb3r3
  obtain ⟨b1, hb1, he2⟩ := List.mem_map.mp hb2
  obtain ⟨a, ha, he1⟩ := List.mem_map.mp hb1
  have la : a.length = hs.length := hlen a ha
  have l1 : b1.length = hs.length := by rw [← he1, updateAt_length, la]
  have l2 : b2.length = hs.length := by rw [← he2, updateAt_length, l1]
  have l3 : b3.length = hs.length := by rw [← he3, updateAt_length, l2]
  have l4 : b4.length = hs.length := by rw [← he5, updateAt_length, l3]
  have c1C : cellAt b1 (firstIdx "Country" hs) =
      Cell.str (pyStrip (cellToStr (cellAt a (firstIdx "Country" hs)))) := by
    rw [← he1, cellAt_updateAt_self _ _ _ (by rw [la]; exact hiC)]; rfl
  have c2C : cellAt b2 (firstIdx "Country" hs) = cellAt b1 (firstIdx "Country" hs) := by
    rw [← he2, cellAt_updateAt_ne _ _ _ _ hneCY]
  have c2Y : cellAt b2 (firstIdx "Year" hs) = toNumeric (cellAt b1 (firstIdx "Year" hs)) := by
    rw [← he2, cellAt_updateAt_self _ _ _ (by rw [l1]; exact hiY)]
  have c3C : cellAt b3 (firstIdx "Country" hs) = cellAt b2 (firstIdx "Country" hs) := by
    rw [← he3, cellAt_updateAt_ne _ _ _ _ hneCV]
  have c3Y : cellAt b3 (firstIdx "Year" hs) = cellAt b2 (firstIdx "Year" hs) := by
    rw [← he3, cellAt_updateAt_ne _ _ _ _ hneYV]
  have c3V : cellAt b3 (firstIdx "Value" hs) = valueXform (cellAt b2 (firstIdx "Value" hs)) := by
    rw [← he3, cellAt_updateAt_self _ _ _ (by rw [l2]; exact hiV)]
  obtain ⟨qV, hqV⟩ := valueXform_num (cellAt b2 (firstIdx "Value" hs))
  have hkeep2 : ¬(cellAt b3 (firstIdx "Year" hs) = Cell.na) := by
    have := hkeep
    simp [keepRow] at this
    exact this.2
  obtain ⟨qY, hqY⟩ : ∃ qY, cellAt b3 (firstIdx "Year" hs) = Cell.num qY := by
    rcases toNumeric_cases (cellAt b1 (firstIdx "Year" hs)) with h1 | ⟨q, h1⟩
    · exact absurd (by rw [c3Y, c2Y]; exact h1) hkeep2
    · exact ⟨q, by rw [c3Y, c2Y]; exact h1⟩
  have c4Y : cellAt b4 (firstIdx "Year" hs) = Cell.num ((truncRat qY : ℤ) : ℚ) := by
    rw [← he5, cellAt_updateAt_self _ _ _ (by rw [l3]; exact hiY), hqY]; rfl
  have c4C : cellAt b4 (firstIdx "Country" hs) = cellAt b3 (firstIdx "Country" hs) := by
    rw [← he5, cellAt_updateAt_ne _ _ _ _ (fun he => hneCY he)]
  have c4V : cellAt b4 (firstIdx "Value" hs) = cellAt b3 (firstIdx "Value" hs) := by
    rw [← he5, cellAt_updateAt_ne _ _ _ _ (fun he => hneYV he.symm)]
  set y0 : Int := truncRat qY with hy0
  have hdate : cellAt r (firstIdx "Date" (hsOut hs)) = mkDateCell (Cell.num ((y0 : ℤ) : ℚ)) ∧
      cellAt r (firstIdx "Country" hs) = cellAt b4 (firstIdx "Country" hs) ∧
      cellAt r (firstIdx "Year" hs) = cellAt b4 (firstIdx "Year" hs) ∧
      cellAt r (firstIdx "Value" hs) = cellAt b4 (firstIdx "Value" hs) ∧
      r.length = (hsOut hs).length := by
    rw [← he6]
    unfold addDate
    by_cases hD : "Date" ∈ hs
    · have hCD : ("Country" : String) ≠ "Date" := by decide
      have hYD : ("Year" : String) ≠ "Date" := by decide
      have hVD : ("Value" : String) ≠ "Date" := by decide
      have hiD : firstIdx "Date" hs < hs.length := firstIdx_lt_length _ _ hD
      have hsOutEq : hsOut hs = hs := by unfold hsOut; rw [if_pos hD]
      rw [if_pos hD, hsOutEq]
      refine ⟨?_, ?_, ?_, ?_, ?_⟩
      · rw [cellAt_updateAt_self _ _ _ (by rw [l4]; exact hiD), c4Y]
      · exact cellAt_updateAt_ne _ _ _ _ (firstIdx_ne _ _ _ hC hD hCD)
      · exact cellAt_updateAt_ne _ _ _ _ (firstIdx_ne _ _ _ hY hD hYD)
      · exact cellAt_updateAt_ne _ _ _ _ (firstIdx_ne _ _ _ hV hD hVD)
      · rw [updateAt_length, l4]
    · have hsOutEq : hsOut hs = hs ++ ["Date"] := by unfold hsOut; rw [if_neg hD]
      have hiD : firstIdx "Date" (hsOut hs) = hs.length := by
        rw [hsOutEq]; exact firstIdx_append_self _ _ hD
      rw [if_neg hD]
      refine ⟨?_, ?_, ?_, ?_, ?_⟩
      · rw [hiD, ← l4, cellAt_append_at, c4Y]
      · exact cellAt_append_left _ _ _ (by rw [l4]; exact hiC)
      · exact cellAt_append_left _ _ _ (by rw [l4]; exact hiY)
      · exact cellAt_append_left _ _ _ (by rw [l4]; exact hiV)
      · rw [hsOutEq]; simp [l4]
  obtain ⟨hdD, hdC, hdY, hdV, hdL⟩ := hdate
  have hne : ¬(cellAt r (firstIdx "Date" (hsOut hs)) = Cell.na) := by
    simp at hp7
    exact hp7
  rcases mkDateCell_num_cases ((y0 : ℤ) : ℚ) with hcase | ⟨_, hlo, hhi, heq⟩
  · exact absurd (by rw [hdD]; exact hcase) hne
  · rw [Rat.num_intCast] at hlo hhi heq
    refine ⟨hdL, ⟨pyStrip (cellToStr (cellAt a (firstIdx "Country" hs))), ?_, pyStrip_idem _⟩,
      ⟨y0, ?_, hlo, hhi, ?_⟩, ⟨qV, ?_⟩⟩
    · rw [hfC, hdC, c4C, c3C, c2C, c1C]
    · rw [hfY, hdY, c4Y]
    · rw [hdD, heq]
    · rw [hfV, hdV, c4V, c3V, hqV]

/-- Every successful normalization yields a table whose headers and rows
satisfy the output invariants. -/
theorem normTable_some (t t2 : Table) (hrect : Rect t) (h : normTable t = some t2) :
    GoodHeaders t2.headers ∧ ∀ r ∈ t2.rows, GoodRow t2.headers r := by
  unfold normTable normCore at h
  by_cases hg : "Country" ∈ detectHeaders t ∧ "Year" ∈ detectHeaders t ∧
      "Value" ∈ detectHeaders t
  · rw [if_pos hg] at h
    have ht2 : t2 = ⟨hsOut (detectHeaders t), rows7 (detectHeaders t) t.rows⟩ :=
      (Option.some.inj h).symm
    subst ht2
    refine ⟨goodHeaders_of_detect t _ rfl hg.1 hg.2.1 hg.2.2, ?_⟩
    intro r hr
    exact goodRow_of_mem _ _ hg.1 hg.2.1 hg.2.2
      (fun a ha => by rw [hrect a ha, ← detectHeaders_length]) r hr
  · rw [if_neg hg] at h
    exact absurd h (by simp)

/-- A table satisfying the output invariants is a fixed point of the
normalization. -/
theorem normTable_of_good (hs2 : List String) (rs : List (List Cell))
    (hH : GoodHeaders hs2) (hR : ∀ r ∈ rs, GoodRow hs2 r) :
    normTable ⟨hs2, rs⟩ = some ⟨hs2, rs⟩ := by
  obtain ⟨hfixAll, hC, hY, hV, hD⟩ := hH
  have hsOutEq : hsOut hs2 = hs2 := by unfold hsOut; rw [if_pos hD]
  have hfCo : firstIdx "Country" (hsOut hs2) = firstIdx "Country" hs2 := by rw [hsOutEq]
  have hdet : detectHeaders ⟨hs2, rs⟩ = hs2 := by
    unfold detectHeaders
    have hmap1 : hs2.map pyStrip = hs2 := mapSame _ _ (fun c hc => (hfixAll c hc).1)
    have hmap2 : hs2.map canonRename = hs2 := mapSame _ _ (fun c hc => (hfixAll c hc).2)
    show valueFallback (((⟨hs2, rs⟩ : Table).headers.map pyStrip).map canonRename) rs = hs2
    rw [show (⟨hs2, rs⟩ : Table).headers = hs2 from rfl, hmap1, hmap2]
    unfold valueFallback
    rw [if_pos hV]
  have e1 : rows1 hs2 rs = rs := by
    apply mapSame
    intro r hr
    obtain ⟨_, ⟨s, hcs, hss⟩, _, _⟩ := hR r hr
    apply updateAt_eq_self
    rw [hcs]
    show Cell.str (pyStrip (cellToStr (Cell.str s))) = Cell.str s
    rw [show cellToStr (Cell.str s) = s from rfl, hss]
  have e2 : rows2 hs2 rs = rs := by
    unfold rows2
    rw [e1]
    apply mapSame
    intro r hr
    obtain ⟨_, _, ⟨y, hys, _, _, _⟩, _⟩ := hR r hr
    apply updateAt_eq_self
    rw [hys]
    rfl
  have e3 : rows3 hs2 rs = rs := by
    unfold rows3
    rw [e2]
    apply mapSame
    intro r hr
    obtain ⟨_, _, _, ⟨q, hvs⟩⟩ := hR r hr
    apply updateAt_eq_self
    rw [hvs]
    rfl
  have e4 : rows4 hs2 rs = rs := by
    unfold rows4
    rw [e3]
    apply List.filter_eq_self.mpr
    intro r hr
    obtain ⟨_, ⟨s, hcs, _⟩, ⟨y, hys, _, _, _⟩, _⟩ := hR r hr
    simp [keepRow, hcs, hys]
  have e5 : rows5 hs2 rs = rs := by
    unfold rows5
    rw [e4]
    apply mapSame
    intro r hr
    obtain ⟨_, _, ⟨y, hys, _, _, _⟩, _⟩ := hR r hr
    apply updateAt_eq_self
    rw [hys]
    show Cell.num ((truncRat ((y : ℤ) : ℚ) : ℤ) : ℚ) = Cell.num ((y : ℤ) : ℚ)
    rw [truncRat_intCast]
  have e6 : rows6 hs2 rs = rs := by
    unfold rows6
    rw [e5]
    apply mapSame
    intro r hr
    obtain ⟨_, _, ⟨y, hys, hlo, hhi, hds⟩, _⟩ := hR r hr
    unfold addDate
    rw [if_pos hD]
    apply updateAt_eq_self
    rw [hys, mkDateCell_intCast y hlo hhi]
    exact hds.symm
  have e7 : rows7 hs2 rs = rs := by
    unfold rows7
    rw [e6]
    apply List.filter_eq_self.mpr
    intro r hr
    obtain ⟨_, _, ⟨y, _, _, _, hds⟩, _⟩ := hR r hr
    simp [hsOutEq, hds]
  unfold normTable
  rw [hdet]
  unfold normCore
  rw [if_pos ⟨hC, hY, hV⟩]
  rw [show (⟨hs2, rs⟩ : Table).rows = rs from rfl, e7, hsOutEq]

/-- Normalization aborts with the missing-column error exactly when the
detected header list misses one of Country, Year, Value. -/
theorem normTable_none_iff (t : Table) :
    normTable t = none ↔
      ¬("Country" ∈ detectHeaders t ∧ "Year" ∈ detectHeaders t ∧ "Value" ∈ detectHeaders t) := by
  unfold normTable normCore
  by_cases hg : "Country" ∈ detectHeaders t ∧ "Year" ∈ detectHeaders t ∧
      "Value" ∈ detectHeaders t
  · rw [if_pos hg]
    simp [hg]
  · rw [if_neg hg]
    simp [hg]

/-- If no header of a table is detected as the Year column, normalization
fails: the rename map is the only way a Year column can appear. -/
theorem noYear_detect (t : Table) (h : ∀ c ∈ t.headers, canonRename (pyStrip c) ≠ "Year") :
    "Year" ∉ detectHeaders t := by
  intro hmem
  unfold detectHeaders at hmem
  rcases valueFallback_mem _ _ _ hmem with h1 | h1
  · rcases List.mem_map.mp h1 with ⟨b, hb, hbe⟩
    rcases List.mem_map.mp hb with ⟨a, ha, hae⟩
    exact h a ha (by rw [hae, hbe])
  · exact absurd h1 (by decide)

/-! ### Spec-side definitions, for comparison with the embedded code -/

def leadMatch : List Char → List Char → Bool
  | [], _ => true
  | _ :: _, [] => false
  | a :: as, b :: bs => a == b && leadMatch as bs

def occursIn (nd : List Char) : List Char → Bool
  | [] => nd.isEmpty
  | b :: bs => leadMatch nd (b :: bs) || occursIn nd bs

/-- Modelled from the spec: the substring-matching step the spec claims
for the column detector — a candidate keyword occurring anywhere in the
header counts as a match. -/
def substrMatch (cands : List String) (h : String) : Bool :=
  cands.any (fun k => occursIn k.data h.data)

/-- Modelled from the spec: the claimed detector algorithm — exact
case-insensitive match first, then substring match, per logical field. -/
def specCanonRename (c : String) : String :=
  if lcOf c ∈ countryAliases then "Country"
  else if lcOf c ∈ yearAliases then "Year"
  else if lcOf c ∈ valueAliases then "Value"
  else if substrMatch countryAliases (lcOf c) then "Country"
  else if substrMatch yearAliases (lcOf c) then "Year"
  else if substrMatch valueAliases (lcOf c) then "Value"
  else c

/-- Modelled from the spec: the claimed NormalizedRow invariant — the
Country cell is a string that is non-empty after trimming and the Year
cell is a 4-digit integer. -/
def specRowOK (hs : List String) (r : List Cell) : Bool :=
  (match cellAt r (firstIdx "Country" hs) with
   | Cell.str s => !(pyStrip s == "")
   | _ => false) &&
  (match cellAt r (firstIdx "Year" hs) with
   | Cell.num q => decide (q.den = 1 ∧ 1000 ≤ q.num ∧ q.num ≤ 9999)
   | _ => false)

/-- The first not-already-assigned mostly-numeric column, stated directly
as a first-index search. -/
def firstNumIdx (hs : List String) (rows : List (List Cell)) : Option Nat :=
  (List.range hs.length).find?
    (fun i => !(hs.getD i "" == "Country") && !(hs.getD i "" == "Year")
      && numericOk (colCells rows i))

theorem head?_filter_eq_find? {α : Type} (p : α → Bool) (l : List α) :
    (l.filter p).head? = l.find? p := by
  induction l with
  | nil => rfl
  | cons a t ih =>
    by_cases hp : p a
    · simp [List.filter_cons, List.find?_cons, hp]
    · simp [List.filter_cons, List.find?_cons, hp, ih]

theorem getD_append_lt {α : Type} (l m : List α) (i : Nat) (d : α) (h : i < l.length) :
    (l ++ m).getD i d = l.getD i d := by
  induction l generalizing i with
  | nil => simp at h
  | cons a t ih =>
    cases i with
    | zero => rfl
    | succ n =>
      have hn : n < t.length := by simpa using h
      simpa [List.getD] using ih n hn

theorem getD_set_ne {α : Type} (l : List α) (j i : Nat) (a : α) (d : α) (h : i ≠ j) :
    (l.set j a).getD i d = l.getD i d := by
  induction l generalizing i j with
  | nil => simp
  | cons c cs ih =>
    cases j with
    | zero =>
      cases i with
      | zero => exact absurd rfl h
      | succ m => rfl
    | succ n =>
      cases i with
      | zero => rfl
      | succ m =>
        have : m ≠ n := fun he => h (by rw [he])
        simpa [List.getD] using ih n m this

/-! ### The Analyze pass (source lines 179 to 260) -/

inductive Disease where
  | covid
  | flu
  | diabetes
deriving DecidableEq

/-- A row of a loaded dataset frame as the Analyze pass sees it: the
country, the Date (an ordinal), the calendar year of the Date, the main
metric value (Confirmed, Cases or Value), and the derived NewCases
column (0 until assigned). -/
structure ARow where
  country : String
  date : Int
  year : Int
  value : ℚ
  newCases : ℚ
deriving DecidableEq

/-- Line 186: df_source[df_source Country isin selected].copy(). -/
def filterCountries (cs : List String) (df : List ARow) : List ARow :=
  df.filter (fun r => cs.contains r.country)

def insertByDate (r : ARow) : List ARow → List ARow
  | [] => [r]
  | x :: xs => if r.date ≤ x.date then r :: x :: xs else x :: insertByDate r xs

/-- Line 187: df.sort_values(Date). -/
def sortByDate (df : List ARow) : List ARow := df.foldr insertByDate []

/-- Lines 194, 202 and 209: the metric column re-coerced with
to_numeric(...).fillna(0); on the already-numeric embedded column this
writes the same values back. -/
def coerceMetric (df : List ARow) : List ARow := df.map (fun r => { r with value := r.value })

/-- Line 195 helper: the last previous value of the same country, the
element that groupby(...)[...].diff() subtracts. -/
def lastVal (c : String) (prev : List ARow) : Option ℚ :=
  ((prev.filter (fun r => r.country == c)).map (fun r => r.value)).getLast?

/-- Line 195: groupby(Country)[Confirmed].diff().fillna(0).clip(lower=0),
row by row; the first row of a country has no predecessor, so diff gives
NaN, fillna turns it into 0, and clip keeps it at 0. -/
def newCasesAux : List ARow → List ARow → List ℚ
  | _, [] => []
  | prev, r :: rest =>
    max 0 (((lastVal r.country prev).map (fun p => r.value - p)).getD 0) ::
      newCasesAux (prev ++ [r]) rest

def newCasesList (df : List ARow) : List ℚ := newCasesAux [] df

/-- Line 195: the NewCases column written onto the frame. -/
def addNewCases (df : List ARow) : List ARow :=
  (df.zip (newCasesList df)).map (fun p => { p.1 with newCases := p.2 })

/-- Lines 186 to 190 of the Analyze pass as operations on a store of
frames: the isin selection plus copy allocates a fresh frame, the sort
allocates another, and the optional year filter a third.  The returned
index is the frame the later column writes mutate. -/
def afterFilters (store : List (List ARow)) (src : Nat) (cs : List String)
    (ysel : Option Int) : List (List ARow) × Nat :=
  let s0 := store ++ [filterCountries cs (store.getD src [])]
  let s1 := s0 ++ [sortByDate (s0.getD store.length [])]
  match ysel with
  | some y => (s1 ++ [(s1.getD s0.length []).filter (fun r => r.year == y)], s1.length)
  | none => (s1, s0.length)

/-- Lines 194, 202 and 209: the metric column write, an in-place store
update of the working frame. -/
def writeMetric (p : List (List ARow) × Nat) : List (List ARow) × Nat :=
  (p.1.set p.2 (coerceMetric (p.1.getD p.2 [])), p.2)

/-- Line 195: the NewCases column write, an in-place store update of the
working frame. -/
def writeNewCases (p : List (List ARow) × Nat) : List (List ARow) × Nat :=
  (p.1.set p.2 (addNewCases (p.1.getD p.2 [])), p.2)

/-- Lines 186 to 214: the whole frame-level Analyze pass.  The metric
coercion (and for COVID-19 the NewCases assignment) are in-place writes
on the working frame. -/
def analyzePass (d : Disease) (store : List (List ARow)) (src : Nat) (cs : List String)
    (ysel : Option Int) : List (List ARow) × Nat :=
  if d = Disease.covid then writeNewCases (writeMetric (afterFilters store src cs ysel))
  else writeMetric (afterFilters store src cs ysel)

/-! ### Yearly aggregation (source lines 227 to 231 and 246 to 252) -/

/-- The group of metric values of one country and one calendar year:
df[df Country == c] grouped by Date.dt.year at key y. -/
def groupVals (df : List ARow) (c : String) (y : Int) : List ℚ :=
  ((df.filter (fun r => r.country == c)).filter (fun r => r.year == y)).map (fun r => r.value)

/-- Running (sum, count) accumulation of a groupby aggregation. -/
def sumCount (l : List ℚ) : ℚ × Nat := l.foldl (fun p v => (p.1 + v, p.2 + 1)) ((0 : ℚ), 0)

/-- One aggregated bar value: mean for the prevalence dataset, sum for
the count datasets; an empty group is the reindex fill value 0. -/
def aggValue (d : Disease) (g : List ℚ) : ℚ :=
  if g.isEmpty then 0
  else if d = Disease.diabetes then (sumCount g).1 / ((sumCount g).2 : ℚ)
  else (sumCount g).1

/-- The per-year series groupby(...)[metric].agg(...).reindex(years,
fill_value=0) of lines 227 to 231 (and likewise 246 to 252). -/
def yearlyAgg (d : Disease) (df : List ARow) (c : String) (years : List Int) :
    List (Int × ℚ) :=
  years.map (fun y => (y, aggValue d (groupVals df c y)))

/-- Arithmetic mean of a list, the spec-side meaning of pandas mean. -/
def listMean (l : List ℚ) : ℚ := l.sum / (l.length : ℚ)

theorem sumCount_spec (l : List ℚ) : sumCount l = (l.sum, l.length) := by
  suffices h : ∀ p : ℚ × Nat, l.foldl (fun p v => (p.1 + v, p.2 + 1)) p = (p.1 + l.sum, p.2 + l.length) by
    rw [sumCount, h]
    simp
  induction l with
  | nil => intro p; simp
  | cons a t ih =>
    intro p
    rw [List.foldl_cons, ih]
    simp
    constructor
    · ring
    · omega

/-! ### Country input processing (source lines 145 to 160) -/

def titleChar (prevAlpha : Bool) (c : Char) : Char :=
  if c.isAlpha then (if prevAlpha then c.toLower else c.toUpper) else c

def titleAux : Bool → List Char → List Char
  | _, [] => []
  | pa, c :: cs => titleChar pa c :: titleAux c.isAlpha cs

/-- Python str.title(): a letter starting a run of letters is uppercased,
the rest are lowercased (ASCII model). -/
def pyTitle (s : String) : String := ⟨titleAux false s.data⟩

/-- p.upper().replace(" ", "").replace(".", "") of line 152. -/
def removeSpaceDot (s : String) : String :=
  ⟨s.data.filter (fun c => !(c == ' ' || c == '.'))⟩

/-- The shortname_map of lines 117 to 120. -/
def shortnameMap (s : String) : Option String :=
  if s = "UAE" then some "United Arab Emirates"
  else if s = "KSA" then some "Saudi Arabia"
  else if s = "SAUDI" then some "Saudi Arabia"
  else if s = "UK" then some "United Kingdom"
  else if s = "US" then some "United States"
  else if s = "USA" then some "United States"
  else none

/-- Lines 151 to 159: one comma-separated part is abbreviation-mapped and
checked against the country list, else matched case-insensitively; an
unmatched part contributes nothing. -/
def matchPart (allCountries : List String) (acc : List String) (p : String) : List String :=
  if (shortnameMap (removeSpaceDot (pyUpper p))).getD p ∈ allCountries then
    acc ++ [(shortnameMap (removeSpaceDot (pyUpper p))).getD p]
  else
    match (allCountries.filter (fun c => pyLower c == pyLower p)).head? with
    | some c => acc ++ [c]
    | none => acc

/-- Lines 145 to 160: the processed country list derived from the free
text input; list(set(...)) is embedded as dedup. -/
def processedCountries (input : String) (allCountries : List String) : List String :=
  if pyStrip input = "" then []
  else if pyStrip (pyLower input) = "all" then allCountries.dedup
  else
    ((((input.split (fun c => c == ',')).filterMap
        (fun p => if pyStrip p = "" then none else some (pyTitle (pyStrip p)))).foldl
      (matchPart allCountries) [])).dedup

/-! ### Supporting lemmas for the Analyze pass and country processing -/

theorem aggValue_sum (d : Disease) (hd : d ≠ Disease.diabetes) (g : List ℚ) :
    aggValue d g = g.sum := by
  cases g with
  | nil => simp [aggValue]
  | cons a t =>
    unfold aggValue
    rw [if_neg (by simp), if_neg hd, sumCount_spec]

theorem aggValue_mean (g : List ℚ) (h : g ≠ []) :
    aggValue Disease.diabetes g = listMean g := by
  cases g with
  | nil => exact absurd rfl h
  | cons a t =>
    unfold aggValue listMean
    rw [if_neg (by simp), if_pos rfl, sumCount_spec]

theorem afterFilters_getD (store : List (List ARow)) (src : Nat) (cs : List String)
    (ysel : Option Int) (i : Nat) (h : i < store.length) :
    (afterFilters store src cs ysel).1.getD i [] = store.getD i [] := by
  unfold afterFilters
  cases ysel with
  | none =>
    rw [getD_append_lt _ _ _ _ (by simp; omega), getD_append_lt _ _ _ _ h]
  | some y =>
    rw [getD_append_lt _ _ _ _ (by simp; omega), getD_append_lt _ _ _ _ (by simp; omega),
      getD_append_lt _ _ _ _ h]

theorem afterFilters_ref (store : List (List ARow)) (src : Nat) (cs : List String)
    (ysel : Option Int) : store.length ≤ (afterFilters store src cs ysel).2 := by
  unfold afterFilters
  cases ysel with
  | none => simp
  | some y => simp

theorem writeMetric_getD (p : List (List ARow) × Nat) (i : Nat) (h : i ≠ p.2) :
    (writeMetric p).1.getD i [] = p.1.getD i [] := by
  unfold writeMetric
  exact getD_set_ne _ _ _ _ _ h

theorem writeNewCases_getD (p : List (List ARow) × Nat) (i : Nat) (h : i ≠ p.2) :
    (writeNewCases p).1.getD i [] = p.1.getD i [] := by
  unfold writeNewCases
  exact getD_set_ne _ _ _ _ _ h

theorem newcases_aux_nonneg (rows : List ARow) :
    ∀ prev, ∀ v ∈ newCasesAux prev rows, 0 ≤ v := by
  induction rows with
  | nil => intro prev v hv; simp [newCasesAux] at hv
  | cons r rest ih =>
    intro prev v hv
    rw [newCasesAux] at hv
    rcases List.mem_cons.mp hv with h1 | h1
    · rw [h1]; exact le_max_left 0 _
    · exact ih (prev ++ [r]) v h1

theorem newcases_aux_length (rows : List ARow) :
    ∀ prev, (newCasesAux prev rows).length = rows.length := by
  induction rows with
  | nil => intro prev; rfl
  | cons r rest ih =>
    intro prev
    rw [newCasesAux]
    simp [ih]

theorem matchPart_sub (allC acc : List String) (p : String)
    (hacc : ∀ x ∈ acc, x ∈ allC) : ∀ x ∈ matchPart allC acc p, x ∈ allC := by
  intro x hx
  unfold matchPart at hx
  by_cases hm : ((shortnameMap (removeSpaceDot (pyUpper p))).getD p) ∈ allC
  · rw [if_pos hm] at hx
    rcases List.mem_append.mp hx with h1 | h1
    · exact hacc x h1
    · rw [List.mem_singleton.mp h1]; exact hm
  · rw [if_neg hm] at hx
    cases hh : (allC.filter (fun c => pyLower c == pyLower p)).head? with
    | none => rw [hh] at hx; exact hacc x hx
    | some c =>
      rw [hh] at hx
      rcases List.mem_append.mp hx with h1 | h1
      · exact hacc x h1
      · rw [List.mem_singleton.mp h1]
        have hc : c ∈ allC.filter (fun c => pyLower c == pyLower p) :=
          List.mem_of_mem_head? (by simp [hh])
        exact (List.mem_filter.mp hc).1

theorem foldl_matchPart_sub (allC : List String) (parts : List String) :
    ∀ acc, (∀ x ∈ acc, x ∈ allC) → ∀ x ∈ parts.foldl (matchPart allC) acc, x ∈ allC := by
  induction parts with
  | nil => intro acc hacc x hx; exact hacc x (by simpa using hx)
  | cons p ps ih =>
    intro acc hacc x hx
    rw [List.foldl_cons] at hx
    exact ih (matchPart allC acc p) (matchPart_sub allC acc p hacc) x hx

/-! ### Concrete example tables -/

/-- The wide-format example of the spec: one row for country X, one
column per year. -/
def wideEx : Table :=
  ⟨["Country", "2019", "2020"], [[Cell.str "X", Cell.num 10, Cell.num 20]]⟩

def cnEx : Table :=
  ⟨["Country Name", "Year", "Prevalence"], [[Cell.str "Chile", Cell.num 2020, Cell.num 9]]⟩

def cyEx : Table := ⟨["Country", "Year"], [[Cell.str "A", Cell.num 2020]]⟩

def blankEx : Table :=
  ⟨["Country", "Year", "Value"], [[Cell.str "   ", Cell.num 2020, Cell.num 5]]⟩

def blankExOut : Table :=
  ⟨["Country", "Year", "Value", "Date"],
   [[Cell.str "", Cell.num 2020, Cell.num 5, Cell.date 2020]]⟩

def chileEx : Table :=
  ⟨["Entity", "Time", "Prevalence"], [[Cell.str "Chile", Cell.num 2020, Cell.num 9]]⟩

def chileOut : Table :=
  ⟨["Country", "Year", "Value", "Date"],
   [[Cell.str "Chile", Cell.num 2020, Cell.num 9, Cell.date 2020]]⟩

def aRow1 : ARow := ⟨"A", 0, 2020, 4, 0⟩

def aRow2 : ARow := ⟨"A", 1, 2020, 6, 0⟩

/-! ### The claims -/

/-- C1 counterexample: the wide-format spec example (country X, year
columns 2019 and 2020) is not reshaped into 1 x 2 = 2 long rows;
load_diabetes_data finds no Year column and aborts, producing no table
at all. -/
theorem wide_table_not_reshaped_cex :
    ¬ ∃ t2, normTable wideEx = some t2 ∧ t2.rows.length = 2 := by
  intro hex
  obtain ⟨t2, h2, _⟩ := hex
  have hn : normTable wideEx = none := by decide
  rw [hn] at h2
  exact Option.noConfusion h2

/-- C1 (amended): load_diabetes_data performs no wide-to-long reshape.
Whenever no header of the input is renamed to Year — in particular for a
wide table whose non-entity columns are four-digit year names — the
normalization fails with the missing-column error and produces no output
table, instead of producing countries x years long rows. -/
theorem no_year_header_fails (t : Table)
    (h : ∀ c ∈ t.headers, canonRename (pyStrip c) ≠ "Year") : normTable t = none := by
  rw [normTable_none_iff]
  intro hg
  exact noYear_detect t h hg.2.1

theorem no_year_header_fails_wit :
    (∀ c ∈ wideEx.headers, canonRename (pyStrip c) ≠ "Year") ∧ normTable wideEx = none :=
  ⟨by decide, no_year_header_fails wideEx (by decide)⟩

/-- C2 counterexample: the header Country Name fails the exact
case-insensitive match (the candidate list has country_name, not country
name), and the claimed substring step would still detect it because the
keyword country occurs in it; the code has no substring step, leaves the
header unassigned, and the whole normalization of such a table fails. -/
theorem substring_step_absent_cex :
    specCanonRename "Country Name" = "Country" ∧
      canonRename "Country Name" = "Country Name" ∧ normTable cnEx = none :=
  ⟨by decide, by decide, by decide⟩

/-- C2 (amended): the column detector tries only an exact
case-insensitive match of each trimmed header against the static
candidate lists — a header matching no candidate exactly is left
unchanged, with no substring step — and, for the Value field alone, when
no header matched by name it renames the first column that is not named
Country or Year and whose values parse as numbers more than half the
time. -/
theorem detector_exact_and_fallback :
    (∀ c, lcOf c ∈ countryAliases → canonRename c = "Country") ∧
    (∀ c, lcOf c ∉ countryAliases → lcOf c ∈ yearAliases → canonRename c = "Year") ∧
    (∀ c, lcOf c ∉ countryAliases → lcOf c ∉ yearAliases → lcOf c ∈ valueAliases →
      canonRename c = "Value") ∧
    (∀ c, lcOf c ∉ countryAliases → lcOf c ∉ yearAliases → lcOf c ∉ valueAliases →
      canonRename c = c) ∧
    (∀ hs rows, "Value" ∈ hs → valueFallback hs rows = hs) ∧
    (∀ hs rows, "Value" ∉ hs →
      valueFallback hs rows =
        match firstNumIdx hs rows with
        | some i => hs.map (fun c => if c = hs.getD i "" then "Value" else c)
        | none => hs) := by
  refine ⟨?_, ?_, ?_, ?_, ?_, ?_⟩
  · intro c h; simp [canonRename, h]
  · intro c h1 h2; simp [canonRename, h1, h2]
  · intro c h1 h2 h3; simp [canonRename, h1, h2, h3]
  · intro c h1 h2 h3; simp [canonRename, h1, h2, h3]
  · intro hs rows h; unfold valueFallback; rw [if_pos h]
  · intro hs rows h
    unfold valueFallback
    rw [if_neg h]
    have hh : firstNumIdx hs rows = (fallbackCandidates hs rows).head? :=
      (head?_filter_eq_find? _ _).symm
    cases hc : fallbackCandidates hs rows with
    | nil => rw [hh, hc]; rfl
    | cons i ts => rw [hh, hc]; rfl

theorem detector_exact_and_fallback_wit :
    canonRename "Entity" = "Country" ∧ canonRename "Country Name" = "Country Name" ∧
      valueFallback ["Country", "Year", "Value"] [] = ["Country", "Year", "Value"] := by
  obtain ⟨h1, _, _, h4, h5, _⟩ := detector_exact_and_fallback
  exact ⟨h1 "Entity" (by decide), h4 "Country Name" (by decide) (by decide) (by decide),
    h5 ["Country", "Year", "Value"] [] (by decide)⟩

/-- C3 counterexample: a table whose Country and Year columns are both
detected still fails, because no column qualifies for Value; the claim
says normalization must not fail then and must default Value to 0. -/
theorem value_required_cex :
    "Country" ∈ detectHeaders cyEx ∧ "Year" ∈ detectHeaders cyEx ∧
      normTable cyEx = none :=
  ⟨by decide, by decide, by decide⟩

/-- C3 (amended): normalization fails with the user-facing
missing-column error exactly when the detected headers miss one of
Country, Year or Value — a missing Value column (after the name match
and the numeric fallback) also fails; it is only the individual
unparsable Value cells that default to 0. -/
theorem missing_column_iff (t : Table) :
    (normTable t = none ↔
      ¬("Country" ∈ detectHeaders t ∧ "Year" ∈ detectHeaders t ∧
        "Value" ∈ detectHeaders t)) ∧
    ∀ c : Cell, toNumeric c = Cell.na → valueXform c = Cell.num 0 := by
  refine ⟨normTable_none_iff t, ?_⟩
  intro c hc
  unfold valueXform
  rw [hc]
  rfl

theorem missing_column_iff_wit :
    normTable cyEx = none ∧ valueXform Cell.na = Cell.num 0 := by
  have h := missing_column_iff cyEx
  exact ⟨h.1.mpr (by decide), h.2 Cell.na rfl⟩

/-- C4 counterexample: a whitespace-only Country cell survives
normalization as the empty string, so the normalized row violates the
claimed non-empty-after-trimming invariant. -/
theorem empty_country_kept_cex :
    normTable blankEx = some blankExOut ∧
      specRowOK blankExOut.headers (blankExOut.rows.getD 0 []) = false :=
  ⟨by decide, by decide⟩

/-- C4 (amended): every row of a normalized table has a Country cell that
is a trimmed string — possibly empty, emptiness is not rejected — a Year
cell that is a 4-digit integer whose derived Date is January 1 of that
year, and a numeric Value cell; an unparsable Value cell is defaulted to
0 by the coercion. -/
theorem normalized_row_props (t t2 : Table) (hrect : Rect t) (h : normTable t = some t2) :
    (∀ r ∈ t2.rows,
      (∃ s, cellAt r (firstIdx "Country" t2.headers) = Cell.str s ∧ pyStrip s = s) ∧
      (∃ y : Int, cellAt r (firstIdx "Year" t2.headers) = Cell.num ((y : ℤ) : ℚ) ∧
        1000 ≤ y ∧ y ≤ 9999 ∧ cellAt r (firstIdx "Date" t2.headers) = Cell.date y) ∧
      (∃ q, cellAt r (firstIdx "Value" t2.headers) = Cell.num q)) ∧
    (∀ c : Cell, toNumeric c = Cell.na → valueXform c = Cell.num 0) := by
  refine ⟨?_, ?_⟩
  · intro r hr
    obtain ⟨_, hrows⟩ := normTable_some t t2 hrect h
    obtain ⟨_, hcountry, ⟨y, hy, hlo, hhi, hdate⟩, hvalue⟩ := hrows r hr
    exact ⟨hcountry, ⟨y, hy, by omega, by omega, hdate⟩, hvalue⟩
  · intro c hc
    unfold valueXform
    rw [hc]
    rfl

theorem normalized_row_props_wit :
    ∃ q, cellAt (blankExOut.rows.getD 0 []) (firstIdx "Value" blankExOut.headers) =
      Cell.num q := by
  have h := normalized_row_props blankEx blankExOut (by unfold Rect; decide) (by decide)
  exact (h.1 (blankExOut.rows.getD 0 []) (by decide)).2.2

/-- C5: normalization depends on the header names only through the rename
map, so two long-format inputs that differ only in which accepted
header-name variant is used normalize to identical output. -/
theorem header_variants_same_output (h1 h2 : List String) (rows : List (List Cell))
    (h : (h1.map pyStrip).map canonRename = (h2.map pyStrip).map canonRename) :
    normTable ⟨h1, rows⟩ = normTable ⟨h2, rows⟩ := by
  unfold normTable detectHeaders
  rw [h]

theorem header_variants_same_output_wit :
    ((["Entity", "Time", "Prevalence"].map pyStrip).map canonRename =
      (["Country", "Year", "Value"].map pyStrip).map canonRename) ∧
    normTable ⟨["Entity", "Time", "Prevalence"],
        [[Cell.str "Chile", Cell.num 2020, Cell.num (19 / 2)]]⟩ =
      normTable ⟨["Country", "Year", "Value"],
        [[Cell.str "Chile", Cell.num 2020, Cell.num (19 / 2)]]⟩ :=
  ⟨by decide, header_variants_same_output _ _ _ (by decide)⟩

/-- C6: normalization is idempotent — normalizing a table that is itself
the output of normalization returns it unchanged. -/
theorem normalize_idem (t t2 : Table) (hrect : Rect t) (h : normTable t = some t2) :
    normTable t2 = some t2 := by
  obtain ⟨hH, hR⟩ := normTable_some t t2 hrect h
  exact normTable_of_good t2.headers t2.rows hH hR

theorem normalize_idem_wit : normTable chileOut = some chileOut :=
  normalize_idem chileEx chileOut (by unfold Rect; decide) (by decide)

/-- C7: the per-country per-year aggregated bar value is the arithmetic
mean of the Value group for the prevalence dataset (Diabetes) and the sum
of the metric group for the count datasets (COVID-19, Influenza), for
every selected country and every year of the year list. -/
theorem yearly_agg_mean_sum (df : List ARow) (c : String) (years : List Int) (y : Int)
    (hy : y ∈ years) :
    (groupVals df c y ≠ [] →
      (y, listMean (groupVals df c y)) ∈ yearlyAgg Disease.diabetes df c years) ∧
    (y, (groupVals df c y).sum) ∈ yearlyAgg Disease.covid df c years ∧
    (y, (groupVals df c y).sum) ∈ yearlyAgg Disease.flu df c years := by
  refine ⟨?_, ?_, ?_⟩
  · intro hne
    rw [← aggValue_mean _ hne]
    exact List.mem_map.mpr ⟨y, hy, rfl⟩
  · rw [← aggValue_sum Disease.covid (by decide) _]
    exact List.mem_map.mpr ⟨y, hy, rfl⟩
  · rw [← aggValue_sum Disease.flu (by decide) _]
    exact List.mem_map.mpr ⟨y, hy, rfl⟩

theorem yearly_agg_mean_sum_wit :
    (2020, (5 : ℚ)) ∈ yearlyAgg Disease.diabetes [aRow1, aRow2] "A" [2020] ∧
    (2020, (10 : ℚ)) ∈ yearlyAgg Disease.covid [aRow1, aRow2] "A" [2020] := by
  have h := yearly_agg_mean_sum [aRow1, aRow2] "A" [2020] 2020 (by decide)
  have hg : groupVals [aRow1, aRow2] "A" 2020 = [4, 6] := by decide
  constructor
  · have h1 := h.1 (by rw [hg]; simp)
    rw [hg] at h1
    rw [show listMean [(4 : ℚ), 6] = 5 from by simp [listMean]; norm_num] at h1
    exact h1
  · have h2 := h.2.1
    rw [hg] at h2
    rw [show ([(4 : ℚ), 6]).sum = 10 from by norm_num] at h2
    exact h2

/-- C8: an Analyze pass mutates only the freshly allocated working frame:
every frame already in the store before the pass — in particular the
cached covid, flu and diabetes source frames — is unchanged afterwards. -/
theorem analyze_preserves_source (d : Disease) (store : List (List ARow)) (src : Nat)
    (cs : List String) (ysel : Option Int) (i : Nat) (h : i < store.length) :
    ((analyzePass d store src cs ysel).1).getD i [] = store.getD i [] := by
  have href := afterFilters_ref store src cs ysel
  have hget := afterFilters_getD store src cs ysel i h
  have hne : i ≠ (afterFilters store src cs ysel).2 := by omega
  unfold analyzePass
  by_cases hd : d = Disease.covid
  · rw [if_pos hd, writeNewCases_getD _ _ (by rw [writeMetric]; exact hne),
      writeMetric_getD _ _ hne, hget]
  · rw [if_neg hd, writeMetric_getD _ _ hne, hget]

theorem analyze_preserves_source_wit :
    ((analyzePass Disease.covid [[aRow1]] 0 ["A"] none).1).getD 0 [] =
      ([[aRow1]] : List (List ARow)).getD 0 [] :=
  analyze_preserves_source Disease.covid [[aRow1]] 0 ["A"] none 0 (by decide)

/-- C9: every derived NewCases value of the COVID-19 pass is
non-negative — the per-country difference of Confirmed is clipped below
at 0 and the first row of each country becomes 0 — and there is exactly
one NewCases value per row. -/
theorem newcases_nonneg (df : List ARow) :
    (∀ v ∈ newCasesList df, 0 ≤ v) ∧ (newCasesList df).length = df.length := by
  constructor
  · intro v hv
    exact newcases_aux_nonneg df [] v hv
  · exact newcases_aux_length df []

theorem newcases_nonneg_wit :
    (0 : ℚ) ≤ 2 ∧ (newCasesList [aRow1, aRow2]).length = 2 := by
  have h := newcases_nonneg [aRow1, aRow2]
  have hlist : newCasesList [aRow1, aRow2] = [0, 2] := by
    simp [newCasesList, newCasesAux, lastVal, aRow1, aRow2]
    norm_num
  exact ⟨h.1 2 (by rw [hlist]; simp), h.2.trans (by decide)⟩

/-- C10: the processed country list contains no duplicates, every element
belongs to the dataset country list, and names that match nothing are
dropped without any error (the processing is total). -/
theorem processed_countries_nodup_subset (input : String) (allC : List String) :
    (processedCountries input allC).Nodup ∧
      ∀ x ∈ processedCountries input allC, x ∈ allC := by
  unfold processedCountries
  by_cases h0 : pyStrip input = ""
  · rw [if_pos h0]
    exact ⟨List.nodup_nil, by simp⟩
  · rw [if_neg h0]
    by_cases h1 : pyStrip (pyLower input) = "all"
    · rw [if_pos h1]
      exact ⟨List.nodup_dedup _, fun x hx => List.mem_dedup.mp hx⟩
    · rw [if_neg h1]
      refine ⟨List.nodup_dedup _, fun x hx => ?_⟩
      exact foldl_matchPart_sub allC _ [] (by simp) x (List.mem_dedup.mp hx)

theorem processed_countries_nodup_subset_wit :
    (processedCountries "usa" ["United States"]).Nodup ∧
      ∀ x ∈ processedCountries "usa" ["United States"], x ∈ ["United States"] :=
  processed_countries_nodup_subset "usa" ["United States"]

end MDDA
